import Mathlib

/-!
Verification of `packages/remix-node/data.ts`: the server-side glue that
invokes a matched route's `loader`/`action`, normalizes the result into an
HTTP response, and records per-route timing.

JavaScript dynamic values are embedded as the inductive `JSValue`; route
modules carry optional loader/action functions; the asynchronous functions
are embedded as pure functions returning `Except String` (a thrown `Error`
with its message) together with a trace of which user callbacks were
invoked.  Clock readings (`performance.now()`) and JS numbers are modelled
as rationals.
-/

namespace Remix

/-- A JavaScript value, as far as this module observes one: `undefined`,
`null`, booleans, numbers, strings and plain objects (ordered field lists). -/
inductive JSValue where
  | undefined
  | null
  | bool (b : Bool)
  | num (n : ℚ)
  | str (s : String)
  | obj (fields : List (String × JSValue))

/-- `v === undefined`. -/
def JSValue.isUndefined : JSValue → Bool
  | .undefined => true
  | _ => false

/-- `v === null`. -/
def JSValue.isNull : JSValue → Bool
  | .null => true
  | _ => false

/-- JavaScript `typeof v` for the values of the model. -/
def typeof : JSValue → String
  | .undefined => "undefined"
  | .null => "object"
  | .bool _ => "boolean"
  | .num _ => "number"
  | .str _ => "string"
  | .obj _ => "object"

/-- First field with the given key, `undefined` when absent. -/
def getField (key : String) : List (String × JSValue) → JSValue
  | [] => .undefined
  | (k, v) :: rest => if k == key then v else getField key rest

/-- JavaScript property access `v[key]`: fields of objects, `undefined` on
everything else (`isResponse` only reads properties after a null check). -/
def getProp (v : JSValue) (key : String) : JSValue :=
  match v with
  | .obj fields => getField key fields
  | _ => .undefined

/-- `isResponse` from `data.ts`: duck-types the Response shape. -/
def isResponse (value : JSValue) : Bool :=
  !value.isNull && !value.isUndefined &&
  typeof (getProp value "status") == "number" &&
  typeof (getProp value "statusText") == "string" &&
  typeof (getProp value "headers") == "object" &&
  !(typeof (getProp value "body") == "undefined")

/-- Modelled from the spec: the `json` helper of the absent `responses`
module, which normalizes data into an HTTP response — a JSON `Response`
wrapping the data, with status 200 and a JSON content type.  The real body
is the JSON serialization of the data; only its definedness is ever
observed here, so the body field carries the wrapped data itself. -/
def json (data : JSValue) : JSValue :=
  .obj [("status", .num 200),
        ("statusText", .str ""),
        ("headers", .obj [("Content-Type", .str "application/json; charset=utf-8")]),
        ("body", data)]

/-- The part of a `Request` (absent `fetch` module) this code reads:
`request.method` and `request.url`, used in one error message. -/
structure Request where
  method : String
  url : String

/-- Route params from the external router. -/
abbrev Params := List (String × String)

/-- The `{ request, context, params }` argument object handed to a
loader or action (the `time` helper is not modelled as an argument since
the embedded callbacks are pure). -/
structure DataFunctionArgs where
  request : Request
  context : JSValue
  params : Params

/-- A route module: optional `loader` and `action` functions whose resolved
value is an arbitrary JS value (`undefined` models a resolved-to-undefined
promise). -/
structure RouteModule where
  loader : Option (DataFunctionArgs → JSValue)
  action : Option (DataFunctionArgs → JSValue)

/-- An entry of `build.routes`. -/
structure ServerRoute where
  module : RouteModule

/-- The server build manifest: route modules keyed by route id. -/
structure ServerBuild where
  routes : List (String × ServerRoute)

/-- `build.routes[routeId]`, `none` when the id is unknown. -/
def lookupRoute (build : ServerBuild) (routeId : String) : Option ServerRoute :=
  (build.routes.find? (fun p => p.1 == routeId)).map (fun p => p.2)

/-- Invocation of a user-supplied callback, recorded in a trace. -/
inductive Event where
  | loaderCall
  | actionCall
  | fnCall
deriving BEq, DecidableEq

/-- Message thrown when a defined loader resolves to `undefined`. -/
def loaderUndefinedMessage (routeId : String) : String :=
  "You defined a loader for route \"" ++ routeId ++ "\" but didn\x27t return " ++
    "anything from your \x60loader\x60 function. Please return a value or \x60null\x60."

/-- Message thrown when the route module has no `action`. -/
def actionMissingMessage (routeId : String) (request : Request) : String :=
  "You made a " ++ request.method ++ " request to " ++ request.url ++
    " but did not provide an \x60action\x60 for route \"" ++ routeId ++
    "\", so there is no way to handle the request."

/-- Message thrown when a defined action resolves to `undefined`. -/
def actionUndefinedMessage (routeId : String) : String :=
  "You defined an action for route \"" ++ routeId ++ "\" but didn\x27t return " ++
    "anything from your \x60action\x60 function. Please return a value or \x60null\x60."

/-- The TypeError thrown by `build.routes[routeId].module` on an unknown id. -/
def unknownRouteMessage (routeId : String) : String :=
  "TypeError: cannot read property \x27module\x27 of undefined (route \"" ++
    routeId ++ "\")"

/-- `loadRouteData` from `data.ts`: result (or thrown error message) paired
with the trace of user callbacks invoked. -/
def loadRouteData (build : ServerBuild) (routeId : String) (request : Request)
    (context : JSValue) (params : Params) :
    Except String JSValue × List Event :=
  match lookupRoute build routeId with
  | none => (.error (unknownRouteMessage routeId), [])
  | some route =>
    match route.module.loader with
    | none => (.ok (json .null), [])
    | some loader =>
      let result := loader ⟨request, context, params⟩
      if result.isUndefined then
        (.error (loaderUndefinedMessage routeId), [.loaderCall])
      else
        (.ok (if isResponse result then result else json result), [.loaderCall])

/-- `callRouteAction` from `data.ts`. -/
def callRouteAction (build : ServerBuild) (routeId : String) (request : Request)
    (context : JSValue) (params : Params) :
    Except String JSValue × List Event :=
  match lookupRoute build routeId with
  | none => (.error (unknownRouteMessage routeId), [])
  | some route =>
    match route.module.action with
    | none => (.error (actionMissingMessage routeId request), [])
    | some action =>
      let result := action ⟨request, context, params⟩
      if result.isUndefined then
        (.error (actionUndefinedMessage routeId), [.actionCall])
      else
        (.ok (if isResponse result then result else json result), [.actionCall])

/-- Modelled from the spec: the `Headers` class of the absent `fetch`
module.  `get` looks a header name up case-insensitively and returns
`null` (`none`) when the header is absent. -/
structure Headers where
  entries : List (String × String)

/-- Case-insensitive equality of header names. -/
def headerNameEq (a b : String) : Bool :=
  a.toList.map Char.toLower == b.toList.map Char.toLower

/-- `headers.get(name)`. -/
def Headers.get (headers : Headers ) (name : String) : Option String :=
  (headers.entries.find? (fun p => headerNameEq p.1 name)).map (fun p => p.2)

/-- The part of a `Response` that `extractData` reads. -/
structure Response where
  headers : Headers

/-- Which body accessor `extractData` returns: `response.json()` or
`response.text()`. -/
inductive ExtractedBody where
  | jsonBody
  | textBody
deriving DecidableEq

/-- JavaScript regex word character, `[A-Za-z0-9_]` (`Char.isAlphanum` is
ASCII-only, matching the non-unicode regex). -/
def isWordChar (c : Char) : Bool :=
  c.isAlphanum || c == '_'

/-- The literal characters of the pattern `application/json`. -/
def jsonToken : List Char :=
  "application/json".toList

/-- `\b` before the match: start of input or a non-word character (the
pattern starts with the word character `a`). -/
def boundaryBefore : Option Char → Bool
  | none => true
  | some c => !isWordChar c

/-- `\b` after the match: end of input or a non-word character (the
pattern ends with the word character `n`). -/
def boundaryAfter : List Char → Bool
  | [] => true
  | c :: _ => !isWordChar c

/-- Left-to-right scan for `/\bapplication\/json\b/.test`, carrying the
character preceding the current position. -/
def scanJsonWord : Option Char → List Char → Bool
  | _, [] => false
  | prev, c :: rest =>
    (boundaryBefore prev && jsonToken.isPrefixOf (c :: rest) &&
      boundaryAfter ((c :: rest).drop jsonToken.length))
    || scanJsonWord (some c) rest

/-- `/\bapplication\/json\b/.test(s)`. -/
def hasJsonWord (s : String) : Bool :=
  scanJsonWord none s.toList

/-- The character just before a match position: the last character of the
text to the left of it, or the carried predecessor when that text is empty. -/
def charBefore : Option Char → List Char → Option Char
  | prev, [] => prev
  | _, c :: pre => charBefore (some c) pre

/-- The regex as the spec describes it: the input splits as
`pre ++ application/json ++ post` with a word boundary on both sides. -/
def JsonWordMatch (prev : Option Char) (cs : List Char) : Prop :=
  ∃ pre post, cs = pre ++ jsonToken ++ post ∧
    boundaryBefore (charBefore prev pre) = true ∧
    boundaryAfter post = true

/-- `extractData` from `data.ts`, returning which accessor is used
(`contentType` is truthy exactly when present and nonempty). -/
def extractData (response : Response) : ExtractedBody :=
  match response.headers.get "Content-Type" with
  | some contentType =>
    if contentType ≠ "" ∧ hasJsonWord contentType = true then .jsonBody
    else .textBody
  | none => .textBody

/-- One `{ name, time }` entry of the `Timings` record. -/
structure TimingEntry where
  name : String
  time : ℚ
deriving DecidableEq

/-- `Timings`: a record of entry arrays keyed by timing type, in key
insertion order. -/
abbrev Timings := List (String × List TimingEntry)

/-- `timings[type]`, `none` when the key is absent. -/
def lookupTimings (type : String) : Timings → Option (List TimingEntry)
  | [] => none
  | (k, l) :: rest => if k = type then some l else lookupTimings type rest

/-- The record update performed by `timer`: push onto the existing array
under `type`, or create the key (at insertion-order end) with a singleton. -/
def recordTiming (type : String) (entry : TimingEntry) : Timings → Timings
  | [] => [(type, [entry])]
  | (k, l) :: rest =>
    if k = type then (k, l ++ [entry]) :: rest
    else (k, l) :: recordTiming type entry rest

/-- `timer` from `data.ts`.  The awaited callback `fn` is embedded by its
resolved value together with the two `performance.now()` readings `t0`
(taken just before invoking `fn`) and `t1` (just after it resolves);
returns the resolved value, the updated timings and the callback trace. -/
def timer {Result : Type} (name type : String) (fnResult : Result)
    (t0 t1 : ℚ) (timings : Timings) : Result × Timings × List Event :=
  (fnResult, recordTiming type ⟨name, t1 - t0⟩ timings, [.fnCall])

/-- JavaScript `Number.prototype.toFixed(2)`: the nearest integer number of
hundredths, ties toward the larger integer, printed with two decimals.  The
integer is `⌊100q + 1/2⌋`, computed on numerator and denominator by flooring
division so that concrete inputs evaluate. -/
def toFixed2 (q : ℚ) : String :=
  let n : ℤ := Int.fdiv (q.num * 200 + q.den) (2 * q.den)
  let sign := if n < 0 then "-" else ""
  let m := n.natAbs
  let frac := m % 100
  sign ++ toString (m / 100) ++ "." ++ (if frac < 10 then "0" else "") ++ toString frac

/-- `getServerTimeHeader` from `data.ts`. -/
def getServerTimeHeader (timings : Timings) : String :=
  String.intercalate ", "
    ((timings.map (fun p =>
      p.2.map (fun info =>
        p.1 ++ ";dur=" ++ toFixed2 info.time ++ ";desc=\"" ++ info.name ++ "\""))).flatten)

/-- The header entries as the spec describes them: one string per recorded
entry, in record key order and, within a key, in array order. -/
def serverTimeEntries : Timings → List String
  | [] => []
  | (type, infos) :: rest =>
    infos.map (fun info =>
      type ++ ";dur=" ++ toFixed2 info.time ++ ";desc=\"" ++ info.name ++ "\"")
      ++ serverTimeEntries rest

/-- A concrete request used to instantiate theorems. -/
def sampleRequest : Request :=
  ⟨"POST", "http://localhost/items"⟩

/-- A concrete loader result passing `isResponse`. -/
def sampleResponse : JSValue :=
  .obj [("status", .num 204), ("statusText", .str ""), ("headers", .obj []), ("body", .null)]

/-- A route with a loader resolving to the plain value `5` and an action
resolving to `sampleResponse`. -/
def sampleRoute : ServerRoute :=
  ⟨⟨some (fun _ => .num 5), some (fun _ => sampleResponse)⟩⟩

/-- A route with neither loader nor action. -/
def emptyRoute : ServerRoute :=
  ⟨⟨none, none⟩⟩

/-- A route whose loader and action both resolve to `undefined`. -/
def undefinedRoute : ServerRoute :=
  ⟨⟨some (fun _ => .undefined), some (fun _ => .undefined)⟩⟩

/-- A concrete build manifest. -/
def sampleBuild : ServerBuild :=
  ⟨[("routes/index", sampleRoute), ("routes/empty", emptyRoute),
    ("routes/undef", undefinedRoute)]⟩

/-! ### Helper lemmas -/

theorem jsonToken_length : jsonToken.length = 16 := by decide

theorem isResponse_json (data : JSValue) (h : data.isUndefined = false) :
    isResponse (json data) = true := by
  cases data <;> simp_all [isResponse, json, getProp, getField, typeof, JSValue.isNull,
    JSValue.isUndefined]

theorem lookupTimings_recordTiming_self (type : String) (entry : TimingEntry)
    (timings : Timings) :
    lookupTimings type (recordTiming type entry timings)
      = some ((lookupTimings type timings).getD [] ++ [entry]) := by
  induction timings with
  | nil => simp [recordTiming, lookupTimings]
  | cons p rest ih =>
    obtain ⟨k, l⟩ := p
    by_cases hk : k = type
    · subst hk
      simp [recordTiming, lookupTimings]
    · simp [recordTiming, lookupTimings, hk, ih]

theorem lookupTimings_recordTiming_other (type k : String) (entry : TimingEntry)
    (timings : Timings) (h : k ≠ type) :
    lookupTimings k (recordTiming type entry timings) = lookupTimings k timings := by
  induction timings with
  | nil => simp [recordTiming, lookupTimings, Ne.symm h]
  | cons p rest ih =>
    obtain ⟨k', l⟩ := p
    by_cases hk : k' = type
    · subst hk
      simp [recordTiming, lookupTimings, Ne.symm h]
    · by_cases hk' : k' = k
      · subst hk'
        simp [recordTiming, lookupTimings, hk]
      · simp [recordTiming, lookupTimings, hk, hk', ih]

theorem keys_recordTiming (type : String) (entry : TimingEntry) (timings : Timings) :
    (recordTiming type entry timings).map Prod.fst = timings.map Prod.fst
    ∨ (recordTiming type entry timings).map Prod.fst = timings.map Prod.fst ++ [type] := by
  induction timings with
  | nil =>
    right
    simp [recordTiming]
  | cons p rest ih =>
    obtain ⟨k, l⟩ := p
    by_cases hk : k = type
    · left
      subst hk
      simp [recordTiming]
    · rcases ih with h | h
      · left
        simp [recordTiming, hk, h]
      · right
        simp [recordTiming, hk, h]

theorem getServerTimeHeader_eq_entries (timings : Timings) :
    getServerTimeHeader timings = String.intercalate ", " (serverTimeEntries timings) := by
  unfold getServerTimeHeader
  congr 1
  induction timings with
  | nil => rfl
  | cons p rest ih =>
    obtain ⟨type, infos⟩ := p
    simp [serverTimeEntries, ih]

theorem scanJsonWord_iff (cs : List Char) :
    ∀ prev, scanJsonWord prev cs = true ↔ JsonWordMatch prev cs := by
  induction cs with
  | nil =>
    intro prev
    constructor
    · intro h
      simp [scanJsonWord] at h
    · rintro ⟨pre, post, h, -, -⟩
      have hlen := congrArg List.length h
      simp [jsonToken_length] at hlen
      omega
  | cons c rest ih =>
    intro prev
    simp only [scanJsonWord, Bool.or_eq_true, Bool.and_eq_true]
    constructor
    · rintro (⟨⟨hb, hp⟩, ha⟩ | htail)
      · rw [List.isPrefixOf_iff_prefix] at hp
        obtain ⟨post, hpost⟩ := hp
        refine ⟨[], post, by simpa using hpost.symm, by simpa [charBefore] using hb, ?_⟩
        rw [← hpost, List.drop_left] at ha
        exact ha
      · obtain ⟨pre, post, heq, hb, ha⟩ := (ih (some c)).mp htail
        exact ⟨c :: pre, post, by simp [heq], hb, ha⟩
    · rintro ⟨pre, post, heq, hb, ha⟩
      cases pre with
      | nil =>
        left
        simp only [List.nil_append] at heq
        refine ⟨⟨by simpa [charBefore] using hb, ?_⟩, ?_⟩
        · rw [List.isPrefixOf_iff_prefix]
          exact ⟨post, heq.symm⟩
        · rw [heq, List.drop_left]
          exact ha
      | cons a pre' =>
        right
        simp only [List.cons_append, List.cons.injEq] at heq
        obtain ⟨hc, hrest⟩ := heq
        subst hc
        exact (ih (some c)).mpr ⟨pre', post, hrest, hb, ha⟩

/-! ### Claims -/

/-- C1: for every build, routeId, request, context and params such that the
route module's loader (for `loadRouteData`) or action (for
`callRouteAction`) is defined and resolves to a value `r` that is not
`undefined`, the function resolves to `r` itself when `r` satisfies the
Response shape tested by `isResponse`, and otherwise resolves to `json r`,
the JSON response wrapping `r`. -/
theorem data_result_normalized (build : ServerBuild) (routeId : String)
    (request : Request) (context : JSValue) (params : Params) (route : ServerRoute)
    (hroute : lookupRoute build routeId = some route) :
    (∀ loader, route.module.loader = some loader →
      (loader ⟨request, context, params⟩).isUndefined = false →
      (loadRouteData build routeId request context params).1 =
        .ok (if isResponse (loader ⟨request, context, params⟩)
             then loader ⟨request, context, params⟩
             else json (loader ⟨request, context, params⟩)))
    ∧ (∀ action, route.module.action = some action →
      (action ⟨request, context, params⟩).isUndefined = false →
      (callRouteAction build routeId request context params).1 =
        .ok (if isResponse (action ⟨request, context, params⟩)
             then action ⟨request, context, params⟩
             else json (action ⟨request, context, params⟩))) := by
  constructor
  · intro loader hl hu
    simp [loadRouteData, hroute, hl, hu]
  · intro action ha hu
    simp [callRouteAction, hroute, ha, hu]

/-- C1 witness: on the sample build, the loader value `5` is wrapped by
`json` while the Response-shaped action value passes through unchanged. -/
theorem data_result_normalized_witness :
    (loadRouteData sampleBuild "routes/index" sampleRequest .null []).1 =
      .ok (json (.num 5))
    ∧ (callRouteAction sampleBuild "routes/index" sampleRequest .null []).1 =
      .ok sampleResponse := by
  have h := data_result_normalized sampleBuild "routes/index" sampleRequest .null []
    sampleRoute rfl
  exact ⟨(h.1 (fun _ => .num 5) rfl rfl).trans rfl,
         (h.2 (fun _ => sampleResponse) rfl rfl).trans rfl⟩

/-- C3: `timer` resolves to exactly the value its callback resolved to and
appends exactly one `{ name, time }` entry to `timings[type]`, with `time`
the elapsed clock time `t1 - t0`; an absent `timings[type]` is first
created empty. -/
theorem timer_records_elapsed {Result : Type} (name type : String) (fnResult : Result)
    (t0 t1 : ℚ) (timings : Timings) :
    (timer name type fnResult t0 t1 timings).1 = fnResult
    ∧ lookupTimings type (timer name type fnResult t0 t1 timings).2.1
        = some ((lookupTimings type timings).getD [] ++ [⟨name, t1 - t0⟩]) :=
  ⟨rfl, lookupTimings_recordTiming_self type ⟨name, t1 - t0⟩ timings⟩

/-- C3 witness: a concrete `timer` call returns its callback's value and
creates the singleton entry array. -/
theorem timer_records_elapsed_witness :
    (timer "routes/index" "loader" (42 : ℕ) 0 0 []).1 = 42
    ∧ lookupTimings "loader" (timer "routes/index" "loader" (42 : ℕ) 0 0 []).2.1
        = some [⟨"routes/index", (0 : ℚ) - 0⟩] := by
  have h := timer_records_elapsed "routes/index" "loader" (42 : ℕ) 0 0 []
  exact ⟨h.1, h.2.trans rfl⟩

/-- C6: `timer` modifies the timings record only at its `type` key: every
other key keeps its value, the previous entries of `timings[type]` are kept
in place with the new entry appended at the end, and the key order is
either unchanged or extended with `type` at the end when the key was
absent. -/
theorem timer_frame {Result : Type} (name type : String) (fnResult : Result)
    (t0 t1 : ℚ) (timings : Timings) :
    (∀ k, k ≠ type →
      lookupTimings k (timer name type fnResult t0 t1 timings).2.1
        = lookupTimings k timings)
    ∧ lookupTimings type (timer name type fnResult t0 t1 timings).2.1
        = some ((lookupTimings type timings).getD [] ++ [⟨name, t1 - t0⟩])
    ∧ ((timer name type fnResult t0 t1 timings).2.1.map Prod.fst = timings.map Prod.fst
       ∨ (timer name type fnResult t0 t1 timings).2.1.map Prod.fst
           = timings.map Prod.fst ++ [type]) :=
  ⟨fun k hk => lookupTimings_recordTiming_other type k ⟨name, t1 - t0⟩ timings hk,
   lookupTimings_recordTiming_self type ⟨name, t1 - t0⟩ timings,
   keys_recordTiming type ⟨name, t1 - t0⟩ timings⟩

/-- C6 witness: a `timer` call under the `"loader"` key leaves the
`"action"` key of a concrete record untouched. -/
theorem timer_frame_witness :
    lookupTimings "action"
      (timer "routes/index" "loader" (42 : ℕ) 0 0 [("action", [])]).2.1 = some [] := by
  have h := (timer_frame "routes/index" "loader" (42 : ℕ) 0 0 [("action", [])]).1
    "action" (by decide)
  exact h.trans rfl

/-- C2: `loadRouteData` resolves to `json null` without invoking any route
function when the module has no loader, and it throws exactly when the
loader is defined and resolves to `undefined`; `callRouteAction` throws
exactly when the module has no action or the action resolves to
`undefined`, the message naming the routeId and, for a missing action, the
request method and URL. -/
theorem data_error_conditions (build : ServerBuild) (routeId : String)
    (request : Request) (context : JSValue) (params : Params) (route : ServerRoute)
    (hroute : lookupRoute build routeId = some route) :
    (route.module.loader = none →
      loadRouteData build routeId request context params = (.ok (json .null), []))
    ∧ ((∃ e, (loadRouteData build routeId request context params).1 = .error e) ↔
        ∃ loader, route.module.loader = some loader ∧
          (loader ⟨request, context, params⟩).isUndefined = true)
    ∧ (∀ loader, route.module.loader = some loader →
        (loader ⟨request, context, params⟩).isUndefined = true →
        (loadRouteData build routeId request context params).1 =
          .error (loaderUndefinedMessage routeId))
    ∧ ((∃ e, (callRouteAction build routeId request context params).1 = .error e) ↔
        route.module.action = none ∨
        ∃ action, route.module.action = some action ∧
          (action ⟨request, context, params⟩).isUndefined = true)
    ∧ (route.module.action = none →
        (callRouteAction build routeId request context params).1 =
          .error (actionMissingMessage routeId request))
    ∧ (∀ action, route.module.action = some action →
        (action ⟨request, context, params⟩).isUndefined = true →
        (callRouteAction build routeId request context params).1 =
          .error (actionUndefinedMessage routeId)) := by
  refine ⟨?_, ?_, ?_, ?_, ?_, ?_⟩
  · intro hl
    simp [loadRouteData, hroute, hl]
  · rcases hl : route.module.loader with - | loader
    · simp [loadRouteData, hroute, hl]
    · by_cases hu : (loader ⟨request, context, params⟩).isUndefined = true
      · simp [loadRouteData, hroute, hl, hu]
      · simp only [Bool.not_eq_true] at hu
        simp [loadRouteData, hroute, hl, hu]
  · intro loader hl hu
    simp [loadRouteData, hroute, hl, hu]
  · rcases ha : route.module.action with - | action
    · simp [callRouteAction, hroute, ha]
    · by_cases hu : (action ⟨request, context, params⟩).isUndefined = true
      · simp [callRouteAction, hroute, ha, hu]
      · simp only [Bool.not_eq_true] at hu
        simp [callRouteAction, hroute, ha, hu]
  · intro ha
    simp [callRouteAction, hroute, ha]
  · intro action ha hu
    simp [callRouteAction, hroute, ha, hu]

/-- C2 witness: on the sample build, a route without a loader yields
`json null` with no callback invoked, an `undefined`-resolving loader and
action throw their messages, and a missing action throws the message naming
the method and URL. -/
theorem data_error_conditions_witness :
    loadRouteData sampleBuild "routes/empty" sampleRequest .null [] =
      (.ok (json .null), [])
    ∧ (loadRouteData sampleBuild "routes/undef" sampleRequest .null []).1 =
      .error (loaderUndefinedMessage "routes/undef")
    ∧ (callRouteAction sampleBuild "routes/empty" sampleRequest .null []).1 =
      .error (actionMissingMessage "routes/empty" sampleRequest)
    ∧ (callRouteAction sampleBuild "routes/undef" sampleRequest .null []).1 =
      .error (actionUndefinedMessage "routes/undef") := by
  have hempty := data_error_conditions sampleBuild "routes/empty" sampleRequest .null []
    emptyRoute rfl
  have hundef := data_error_conditions sampleBuild "routes/undef" sampleRequest .null []
    undefinedRoute rfl
  exact ⟨hempty.1 rfl,
         hundef.2.2.1 (fun _ => .undefined) rfl rfl,
         hempty.2.2.2.2.1 rfl,
         hundef.2.2.2.2.2 (fun _ => .undefined) rfl rfl⟩

/-- C4: whenever `loadRouteData` or `callRouteAction` resolves rather than
throwing, the resolved value satisfies the Response shape tested by
`isResponse`. -/
theorem resolved_value_isResponse (build : ServerBuild) (routeId : String)
    (request : Request) (context : JSValue) (params : Params) (v : JSValue)
    (h : (loadRouteData build routeId request context params).1 = .ok v
       ∨ (callRouteAction build routeId request context params).1 = .ok v) :
    isResponse v = true := by
  rcases h with h | h
  · rcases hr : lookupRoute build routeId with - | route
    · simp [loadRouteData, hr] at h
    · rcases hl : route.module.loader with - | loader
      · simp [loadRouteData, hr, hl] at h
        rw [← h]
        decide
      · by_cases hu : (loader ⟨request, context, params⟩).isUndefined = true
        · simp [loadRouteData, hr, hl, hu] at h
        · simp only [Bool.not_eq_true] at hu
          simp [loadRouteData, hr, hl, hu] at h
          by_cases hres : isResponse (loader ⟨request, context, params⟩) = true
          · rw [if_pos hres] at h
            rw [← h]
            exact hres
          · rw [if_neg hres] at h
            rw [← h]
            exact isResponse_json _ hu
  · rcases hr : lookupRoute build routeId with - | route
    · simp [callRouteAction, hr] at h
    · rcases ha : route.module.action with - | action
      · simp [callRouteAction, hr, ha] at h
      · by_cases hu : (action ⟨request, context, params⟩).isUndefined = true
        · simp [callRouteAction, hr, ha, hu] at h
        · simp only [Bool.not_eq_true] at hu
          simp [callRouteAction, hr, ha, hu] at h
          by_cases hres : isResponse (action ⟨request, context, params⟩) = true
          · rw [if_pos hres] at h
            rw [← h]
            exact hres
          · rw [if_neg hres] at h
            rw [← h]
            exact isResponse_json _ hu

/-- C4 witness: the value `loadRouteData` resolves to on the sample build
passes `isResponse`. -/
theorem resolved_value_isResponse_witness :
    isResponse (json (.num 5)) = true :=
  resolved_value_isResponse sampleBuild "routes/index" sampleRequest .null []
    (json (.num 5)) (Or.inl rfl)

/-- C5: `timer` invokes its callback exactly once; `loadRouteData` invokes
the loader exactly once when it is defined and never otherwise;
`callRouteAction` likewise for the action; no function invokes a
user-supplied callback more than once per call. -/
theorem callbacks_invoked_once {Result : Type} (build : ServerBuild) (routeId : String)
    (request : Request) (context : JSValue) (params : Params) (route : ServerRoute)
    (hroute : lookupRoute build routeId = some route)
    (name type : String) (fnResult : Result) (t0 t1 : ℚ) (timings : Timings) :
    (timer name type fnResult t0 t1 timings).2.2 = [.fnCall]
    ∧ (loadRouteData build routeId request context params).2.count .loaderCall
        = (if route.module.loader.isSome then 1 else 0)
    ∧ (loadRouteData build routeId request context params).2.count .actionCall = 0
    ∧ (callRouteAction build routeId request context params).2.count .actionCall
        = (if route.module.action.isSome then 1 else 0)
    ∧ (callRouteAction build routeId request context params).2.count .loaderCall = 0 := by
  refine ⟨rfl, ?_, ?_, ?_, ?_⟩
  · rcases hl : route.module.loader with - | loader
    · simp [loadRouteData, hroute, hl]
    · by_cases hu : (loader ⟨request, context, params⟩).isUndefined = true
      · simp [loadRouteData, hroute, hl, hu]
        decide
      · simp only [Bool.not_eq_true] at hu
        simp [loadRouteData, hroute, hl, hu]
        decide
  · rcases hl : route.module.loader with - | loader
    · simp [loadRouteData, hroute, hl]
    · by_cases hu : (loader ⟨request, context, params⟩).isUndefined = true
      · simp [loadRouteData, hroute, hl, hu]
        decide
      · simp only [Bool.not_eq_true] at hu
        simp [loadRouteData, hroute, hl, hu]
        decide
  · rcases ha : route.module.action with - | action
    · simp [callRouteAction, hroute, ha]
    · by_cases hu : (action ⟨request, context, params⟩).isUndefined = true
      · simp [callRouteAction, hroute, ha, hu]
        decide
      · simp only [Bool.not_eq_true] at hu
        simp [callRouteAction, hroute, ha, hu]
        decide
  · rcases ha : route.module.action with - | action
    · simp [callRouteAction, hroute, ha]
    · by_cases hu : (action ⟨request, context, params⟩).isUndefined = true
      · simp [callRouteAction, hroute, ha, hu]
        decide
      · simp only [Bool.not_eq_true] at hu
        simp [callRouteAction, hroute, ha, hu]
        decide

/-- C5 witness: concrete invocation counts on the sample build. -/
theorem callbacks_invoked_once_witness :
    (timer "routes/index" "loader" (42 : ℕ) 0 0 []).2.2 = [Event.fnCall]
    ∧ (loadRouteData sampleBuild "routes/index" sampleRequest .null []).2.count
        .loaderCall = 1
    ∧ (callRouteAction sampleBuild "routes/index" sampleRequest .null []).2.count
        .actionCall = 1 := by
  have h := callbacks_invoked_once sampleBuild "routes/index" sampleRequest .null []
    sampleRoute rfl "routes/index" "loader" (42 : ℕ) 0 0 []
  exact ⟨h.1, h.2.1.trans rfl, h.2.2.2.1.trans rfl⟩

/-- C7: `extractData` chooses `response.json()` exactly when the
Content-Type header is present and matched by `\bapplication\/json\b`
(a whole-word occurrence of `application/json`), and `response.text()` in
every other case, including an absent header. -/
theorem extractData_contentType (response : Response) :
    (extractData response = .jsonBody ↔
      ∃ ct, response.headers.get "Content-Type" = some ct ∧ JsonWordMatch none ct.toList)
    ∧ (extractData response = .jsonBody ∨ extractData response = .textBody) := by
  constructor
  · rcases hg : response.headers.get "Content-Type" with - | ct
    · simp only [extractData, hg]
      constructor
      · intro h
        exact absurd h (by decide)
      · rintro ⟨ct, hct, -⟩
        cases hct
    · simp only [extractData, hg]
      by_cases hc : ct ≠ "" ∧ hasJsonWord ct = true
      · rw [if_pos hc]
        constructor
        · intro _
          exact ⟨ct, rfl, (scanJsonWord_iff ct.toList none).mp hc.2⟩
        · intro _
          rfl
      · rw [if_neg hc]
        constructor
        · intro h
          exact absurd h (by decide)
        · rintro ⟨ct', hct', hm⟩
          obtain rfl : ct = ct' := by injection hct'
          exfalso
          apply hc
          refine ⟨?_, (scanJsonWord_iff ct.toList none).mpr hm⟩
          obtain ⟨pre, post, heq, -, -⟩ := hm
          intro hct
          subst hct
          have hlen := congrArg List.length heq
          simp [jsonToken_length] at hlen
          omega
  · cases hE : extractData response with
    | jsonBody => exact Or.inl rfl
    | textBody => exact Or.inr rfl

/-- C7 witness: a JSON content type with parameters is matched, so the
JSON body accessor is chosen. -/
theorem extractData_contentType_witness :
    extractData ⟨⟨[("content-type", "application/json; charset=utf-8")]⟩⟩ = .jsonBody := by
  have h := (extractData_contentType
    ⟨⟨[("content-type", "application/json; charset=utf-8")]⟩⟩).1
  exact h.mpr ⟨"application/json; charset=utf-8", rfl,
    [], "; charset=utf-8".toList, by decide, rfl, by decide⟩

/-- C8: `getServerTimeHeader` joins, with separator `", "`, one
`type;dur=D;desc="name"` string per recorded entry — `D` the entry's time
with two decimals — in record key order and, within a key, in array order;
a record with no entries yields the empty string. -/
theorem getServerTimeHeader_spec (timings : Timings) :
    getServerTimeHeader timings = String.intercalate ", " (serverTimeEntries timings)
    ∧ (serverTimeEntries timings = [] → getServerTimeHeader timings = "") := by
  refine ⟨getServerTimeHeader_eq_entries timings, fun h => ?_⟩
  rw [getServerTimeHeader_eq_entries timings, h]
  rfl

/-- C8 witness: the empty record yields the empty string, and a one-entry
record yields its single formatted entry. -/
theorem getServerTimeHeader_spec_witness :
    getServerTimeHeader [] = ""
    ∧ getServerTimeHeader [("loader", [⟨"routes/index", 0⟩])]
        = "loader;dur=0.00;desc=\"routes/index\"" := by
  refine ⟨(getServerTimeHeader_spec []).2 rfl, ?_⟩
  exact (getServerTimeHeader_spec [("loader", [⟨"routes/index", 0⟩])]).1.trans rfl

end Remix
